import Mathlib

/-
Verification of the LLM Compass backend recommendation pipeline.

The definitions below are a shallow embedding of the backend server
(the "LLM extraction + progressive relaxation + server cache" variant,
the most complete of the three backend variants in the repository).
JavaScript strings are Lean strings; JavaScript string primitives
(toLowerCase, split, includes, startsWith) are embedded as executable
functions on the underlying character lists, restricted to ASCII (the
catalog data and all literals in the program are ASCII).  JavaScript
numbers are embedded as Nat (integer counts, timestamps) and as
rationals (prices parsed by parseFloat; exact arithmetic stands in for
IEEE doubles).  The external generative calls and the upstream catalog
fetch are nondeterministic inputs, passed to the embedded functions as
explicit outcome parameters.
-/

namespace LLMCompass

/-! ### JavaScript string primitives -/

/-- Lowercasing of a single character, as toLowerCase acts on ASCII. -/
def asciiLower (c : Char) : Char :=
  match c with
  | 'A' => 'a' | 'B' => 'b' | 'C' => 'c' | 'D' => 'd' | 'E' => 'e' | 'F' => 'f'
  | 'G' => 'g' | 'H' => 'h' | 'I' => 'i' | 'J' => 'j' | 'K' => 'k' | 'L' => 'l'
  | 'M' => 'm' | 'N' => 'n' | 'O' => 'o' | 'P' => 'p' | 'Q' => 'q' | 'R' => 'r'
  | 'S' => 's' | 'T' => 't' | 'U' => 'u' | 'V' => 'v' | 'W' => 'w' | 'X' => 'x'
  | 'Y' => 'y' | 'Z' => 'z' | c => c

/-- Embedding of the JavaScript s.toLowerCase() for ASCII strings. -/
def jsLower (s : String) : String :=
  ⟨s.data.map asciiLower⟩

/-- Does the character sequence sub occur contiguously inside l?  This is
the JavaScript String.prototype.includes on the underlying characters. -/
def containsSeq (sub : List Char) : List Char → Bool
  | [] => sub.isEmpty
  | c :: rest => sub.isPrefixOf (c :: rest) || containsSeq sub rest

/-- Embedding of the JavaScript s.includes(sub). -/
def jsIncludes (s sub : String) : Bool :=
  containsSeq sub.data s.data

/-- Embedding of the JavaScript s.startsWith(pre). -/
def jsStartsWith (s pre : String) : Bool :=
  pre.data.isPrefixOf s.data

/-- Embedding of the JavaScript s.split(sep) for a one-character
separator sep (the separators "+" and "." in the program). -/
def splitChar (sep : Char) : List Char → List (List Char)
  | [] => [[]]
  | c :: rest =>
    if c = sep then [] :: splitChar sep rest
    else match splitChar sep rest with
      | [] => [[c]]
      | x :: t => (c :: x) :: t

/-- Embedding of the JavaScript s.split(sep) for the two-character
separator sep given as the dash-and-greater arrow of modality strings. -/
def splitArrow : List Char → List (List Char)
  | [] => [[]]
  | '-' :: '>' :: rest => [] :: splitArrow rest
  | c :: rest => match splitArrow rest with
      | [] => [[c]]
      | x :: t => (c :: x) :: t

/-! ### Data model -/

/-- Pricing record of a catalog entry: per-token costs kept as decimal
strings, exactly as the server stores them. -/
structure Pricing where
  prompt : String
  completion : String
  request : String
  image : String
deriving DecidableEq, Repr

/-- Architecture record of a catalog entry. -/
structure Architecture where
  modality : String
  tokenizer : String
  instruct_type : Option String
deriving DecidableEq, Repr

/-- One catalog entry, in the transformed shape the server caches. -/
structure Model where
  id : String
  name : String
  description : String
  pricing : Pricing
  context_length : Nat
  architecture : Architecture
  top_provider : Option String
deriving DecidableEq, Repr

/-- Constraint object extracted by Stage 1.  Every field that the
filtering code guards with a JavaScript null-or-undefined (or
truthiness) test is an Option; min_context is a Nat since the code
additionally skips the context check when it is zero. -/
structure Constraints where
  input_modalities : Option (List String)
  output_modalities : Option (List String)
  min_context : Option Nat
  max_price_per_million : Option ℚ
  preferred_providers : Option (List String)
  excluded_providers : Option (List String)
  capability_keywords : Option (List String)
  exclude_keywords : Option (List String)
  speed_preference : String
deriving DecidableEq, Repr

/-- The DEFAULT_CONSTRAINTS object of the server (the Stage 1 fallback). -/
def DEFAULT_CONSTRAINTS : Constraints where
  input_modalities := some ["text"]
  output_modalities := some ["text"]
  min_context := some 0
  max_price_per_million := none
  preferred_providers := some []
  excluded_providers := some []
  capability_keywords := some []
  exclude_keywords := some ["embedding", "base"]
  speed_preference := "any"

/-! ### Stage 2 helpers -/

/-- Result of parseModalityString: input and output modality lists. -/
structure ParsedModality where
  inputs : List String
  outputs : List String
deriving DecidableEq, Repr

/-- Embedding of parseModalityString: lowercase the modality string,
split it at the arrow, and split each side at plus signs; a missing or
empty side defaults to the singleton text list (the empty string is the
only falsy JavaScript string). -/
def parseModalityString (modality : String) : ParsedModality :=
  let parts : List String := (splitArrow (jsLower modality).data).map String.mk
  let inputStr : String := parts.headD ""
  { inputs :=
      if inputStr == "" then ["text"]
      else (splitChar '+' inputStr.data).map String.mk
    outputs :=
      match parts[1]? with
      | some outputStr =>
          if outputStr == "" then ["text"]
          else (splitChar '+' outputStr.data).map String.mk
      | none => ["text"] }

/-- Numeric value of a list of decimal digits. -/
def digitsVal (l : List Char) : Nat :=
  l.foldl (fun a c => a * 10 + (c.toNat - 48)) 0

/-- Embedding of the JavaScript parseFloat restricted to plain decimal
numerals (digits, optionally with one decimal point), the only shape
the pricing strings of the catalog take.  none plays the role of NaN:
the price comparison below treats it as never exceeding the cap, since
every comparison against NaN is false in JavaScript. -/
def parseFloatQ (s : String) : Option ℚ :=
  match splitChar '.' s.data with
  | [w] =>
      if !w.isEmpty && w.all Char.isDigit then some (digitsVal w : ℚ) else none
  | [w, f] =>
      if (!w.isEmpty || !f.isEmpty) && w.all Char.isDigit && f.all Char.isDigit then
        some ((digitsVal w : ℚ) + (digitsVal f : ℚ) / (10 : ℚ) ^ f.length)
      else none
  | _ => none

/-- The lowercased name-description-id haystack the keyword checks scan. -/
def modelText (m : Model) : String :=
  jsLower (m.name ++ " " ++ m.description ++ " " ++ m.id)

/-! ### The eight per-model checks of filterModels

Each definition below is the relax-level-independent part of one
numbered check of filterModels, returning true when the check REJECTS
the model; passesFilter combines them under the relax-level guards in
the order of the source. -/

/-- Check 1, input modality: some required non-text input modality and
the model does not support all required input modalities. -/
def inputModalityFails (c : Constraints) (m : Model) : Bool :=
  match c.input_modalities with
  | none => false
  | some mods =>
      !mods.isEmpty && mods.any (fun mod => mod != "text") &&
        !(mods.all (fun req =>
            (parseModalityString m.architecture.modality).inputs.contains (jsLower req)))

/-- Check 2, output modality: some required non-text output modality and
the model does not support all required output modalities. -/
def outputModalityFails (c : Constraints) (m : Model) : Bool :=
  match c.output_modalities with
  | none => false
  | some mods =>
      !mods.isEmpty && mods.any (fun mod => mod != "text") &&
        !(mods.all (fun req =>
            (parseModalityString m.architecture.modality).outputs.contains (jsLower req)))

/-- Check 3, context length: a positive minimum context and the model
has a smaller context window. -/
def contextFails (c : Constraints) (m : Model) : Bool :=
  match c.min_context with
  | none => false
  | some mc => decide (0 < mc) && decide (m.context_length < mc)

/-- Check 4, price: a price cap is present and the per-token prompt
price times one million exceeds it. -/
def priceFails (c : Constraints) (m : Model) : Bool :=
  match c.max_price_per_million with
  | none => false
  | some cap =>
      match parseFloatQ m.pricing.prompt with
      | none => false
      | some p => decide (p * 1000000 > cap)

/-- Check 5, preferred providers: a non-empty preference list and the
model id starts with none of the preferred prefixes. -/
def preferredProviderFails (c : Constraints) (m : Model) : Bool :=
  match c.preferred_providers with
  | none => false
  | some provs =>
      !provs.isEmpty &&
        !(provs.any (fun prov => jsStartsWith (jsLower m.id) (jsLower prov)))

/-- Check 6, excluded providers: the model id starts with one of the
excluded prefixes. -/
def excludedProviderFails (c : Constraints) (m : Model) : Bool :=
  match c.excluded_providers with
  | none => false
  | some provs =>
      !provs.isEmpty &&
        provs.any (fun prov => jsStartsWith (jsLower m.id) (jsLower prov))

/-- Check 7, capability keywords: a non-empty keyword list and none of
the keywords occurs in the model text. -/
def capabilityKeywordFails (c : Constraints) (m : Model) : Bool :=
  match c.capability_keywords with
  | none => false
  | some kws =>
      !kws.isEmpty && !(kws.any (fun kw => jsIncludes (modelText m) (jsLower kw)))

/-- Check 8, exclude keywords: one of the forbidden keywords occurs in
the model text. -/
def excludeKeywordFails (c : Constraints) (m : Model) : Bool :=
  match c.exclude_keywords with
  | none => false
  | some kws =>
      !kws.isEmpty && kws.any (fun kw => jsIncludes (modelText m) (jsLower kw))

/-- The per-model predicate of filterModels: a model is kept when none
of the eight checks, each active below its relax level exactly as in
the source (checks 1, 2, 6, 8 relax at level 2; checks 3, 4, 5, 7 relax
at level 1), rejects it. -/
def passesFilter (c : Constraints) (relaxLevel : Nat) (m : Model) : Bool :=
  !(  (decide (relaxLevel < 2) && inputModalityFails c m)
   || (decide (relaxLevel < 2) && outputModalityFails c m)
   || (decide (relaxLevel < 1) && contextFails c m)
   || (decide (relaxLevel < 1) && priceFails c m)
   || (decide (relaxLevel < 1) && preferredProviderFails c m)
   || (decide (relaxLevel < 2) && excludedProviderFails c m)
   || (decide (relaxLevel < 1) && capabilityKeywordFails c m)
   || (decide (relaxLevel < 2) && excludeKeywordFails c m))

/-- Embedding of filterModels (Stage 2). -/
def filterModels (models : List Model) (c : Constraints) (relaxLevel : Nat := 0) :
    List Model :=
  models.filter (passesFilter c relaxLevel)

/-- Result record of filterModelsWithFallback. -/
structure FilterResult where
  candidates : List Model
  relaxLevel : Nat
deriving DecidableEq, Repr

/-- The final-fallback predicate: the modality string (an empty string,
the only falsy one, defaulting to text-to-text) contains text. -/
def isTextCapable (m : Model) : Bool :=
  jsIncludes
    (if m.architecture.modality == "" then "text->text" else m.architecture.modality)
    "text"

/-- Embedding of filterModelsWithFallback: try relax levels 0, 1, 2 in
order, returning the first whose candidate count reaches minCandidates
(default 10); otherwise fall back to the text-capable models at level 3. -/
def filterModelsWithFallback (models : List Model) (c : Constraints)
    (minCandidates : Nat := 10) : FilterResult :=
  if (filterModels models c 0).length ≥ minCandidates then
    ⟨filterModels models c 0, 0⟩
  else if (filterModels models c 1).length ≥ minCandidates then
    ⟨filterModels models c 1, 1⟩
  else if (filterModels models c 2).length ≥ minCandidates then
    ⟨filterModels models c 2, 2⟩
  else
    ⟨models.filter isTextCapable, 3⟩

/-! ### Candidate truncation before Stage 3 -/

/-- The literal provider-priority list of the route handler. -/
def providerOrder : List String :=
  ["openai", "anthropic", "google", "meta-llama", "mistral"]

/-- Priority rank of a model: index of the first provider prefix its
lowercased id starts with, or 999 when none matches (the findIndex
result of the comparator). -/
def providerRank (m : Model) : Nat :=
  match providerOrder.findIdx? (fun p => jsStartsWith (jsLower m.id) p) with
  | some i => i
  | none => 999

/-- Embedding of the truncation step of the route: when more than 50
candidates remain, sort them by provider rank (the JavaScript sort is
stable and the comparator subtracts ranks, so this is the stable sort
by rank) and keep the first 50. -/
def limitCandidates (candidates : List Model) : List Model :=
  if candidates.length > 50 then
    (candidates.mergeSort (fun a b => decide (providerRank a ≤ providerRank b))).take 50
  else candidates

/-! ### Server-side model cache -/

/-- The two module-level cache variables of the server. -/
structure CacheState where
  cachedModels : Option (List Model)
  cacheTimestamp : Option Nat
deriving DecidableEq, Repr

/-- Cache time-to-live: six hours in milliseconds. -/
def MODEL_CACHE_TTL : Nat := 6 * 60 * 60 * 1000

/-- Embedding of getModels.  The wall clock (Date.now()) and the outcome
of the upstream fetch-and-transform are explicit inputs; the function
returns the served catalog (or the propagated fetch error) together
with the cache state after the call.  The cached value is served when
both cache variables are non-null, the timestamp is truthy (non-zero),
and its age is below the TTL; otherwise a fetch happens, updating both
variables on success and leaving them untouched on failure. -/
def getModels (st : CacheState) (now : Nat)
    (fetchOutcome : Except String (List Model)) :
    Except String (List Model) × CacheState :=
  match st.cachedModels, st.cacheTimestamp with
  | some models, some ts =>
      if ts ≠ 0 ∧ now - ts < MODEL_CACHE_TTL then (Except.ok models, st)
      else
        match fetchOutcome with
        | .ok fresh => (Except.ok fresh, ⟨some fresh, some now⟩)
        | .error e => (Except.error e, st)
  | _, _ =>
      match fetchOutcome with
      | .ok fresh => (Except.ok fresh, ⟨some fresh, some now⟩)
      | .error e => (Except.error e, st)

/-! ### Stage 1 and Stage 3 outcomes, and the route handler -/

/-- Outcome of the Stage 1 generative call: a successfully parsed
constraint object, or any thrown failure (timeout, network error,
malformed output, schema violation) with its message. -/
inductive LLMOutcome where
  | success : Constraints → LLMOutcome
  | failure : String → LLMOutcome
deriving DecidableEq, Repr

/-- Embedding of extractConstraintsWithLLM: the parsed constraints on
success, DEFAULT_CONSTRAINTS on any failure; it never throws. -/
def extractConstraintsWithLLM : LLMOutcome → Constraints
  | .success cs => cs
  | .failure _ => DEFAULT_CONSTRAINTS

/-- One recommendation of the Stage 3 ranking output. -/
structure Recommendation where
  model_id : String
  reason : String
deriving DecidableEq, Repr

/-- Outcome of the Stage 3 generative call: a successfully parsed
recommendation list, or any thrown failure with its message. -/
inductive RankOutcome where
  | success : List Recommendation → RankOutcome
  | failure : String → RankOutcome
deriving DecidableEq, Repr

/-- The metadata object of a successful response.  The timing block is
wall-clock data and is not modelled. -/
structure Metadata where
  totalModels : Nat
  constraints : Constraints
  afterFiltering : Nat
  relaxLevel : Nat
  candidatesRanked : Nat
deriving DecidableEq, Repr

/-- The normalized constraints echo the route builds into the metadata
(each missing list defaults to empty, a missing minimum context to
zero, a falsy speed preference to any). -/
def echoConstraints (c : Constraints) : Constraints where
  input_modalities := some (c.input_modalities.getD [])
  output_modalities := some (c.output_modalities.getD [])
  min_context := some (c.min_context.getD 0)
  max_price_per_million := c.max_price_per_million
  preferred_providers := some (c.preferred_providers.getD [])
  excluded_providers := some (c.excluded_providers.getD [])
  capability_keywords := some (c.capability_keywords.getD [])
  exclude_keywords := some (c.exclude_keywords.getD [])
  speed_preference :=
    if c.speed_preference == "" then "any" else c.speed_preference

/-- HTTP response of the recommendation route: a 200 with
recommendations and metadata, a 400 with an error message, or a 500
with error and details fields. -/
inductive Response where
  | ok : List Recommendation → Metadata → Response
  | badRequest : String → Response
  | serverError : String → String → Response
deriving DecidableEq, Repr

/-- HTTP status code of a response. -/
def statusOf : Response → Nat
  | .ok _ _ => 200
  | .badRequest _ => 400
  | .serverError _ _ => 500

/-- The candidatesRanked metadata value of a response, when present. -/
def responseCandidatesRanked : Response → Option Nat
  | .ok _ md => some md.candidatesRanked
  | _ => none

/-- Embedding of the recommendation route handler.  A missing or empty
(falsy) useCase is a 400 before any work; a catalog fetch failure or a
Stage 3 ranking failure is caught by the surrounding try-catch and
becomes a 500 with the fixed error string and the thrown message as
details; otherwise the three-stage pipeline runs and a 200 carries the
parsed recommendations and the metadata. -/
def recommendHandler (useCase : Option String) (count : Nat)
    (modelsOutcome : Except String (List Model))
    (extraction : LLMOutcome) (ranking : RankOutcome) : Response :=
  match useCase with
  | none => .badRequest "Invalid request: useCase is required"
  | some u =>
    if u == "" then .badRequest "Invalid request: useCase is required"
    else
      match modelsOutcome with
      | .error e => .serverError "Failed to generate recommendations" e
      | .ok models =>
          let constraints := extractConstraintsWithLLM extraction
          let fr := filterModelsWithFallback models constraints
          let candidates := limitCandidates fr.candidates
          match ranking with
          | .failure e => .serverError "Failed to generate recommendations" e
          | .success recs =>
              .ok recs
                { totalModels := models.length
                  constraints := echoConstraints constraints
                  afterFiltering := fr.candidates.length
                  relaxLevel := fr.relaxLevel
                  candidatesRanked := candidates.length }

/-! ### Concrete data used by witnesses and counterexamples -/

/-- A plain text-to-text chat model with zero prices. -/
def mTextChat : Model where
  id := "openai/gpt-test"
  name := "Chat Model"
  description := "a chat model"
  pricing := ⟨"0", "0", "0", "0"⟩
  context_length := 8192
  architecture := ⟨"text->text", "unknown", none⟩
  top_provider := some "OpenAI"

/-- A model that takes and produces only images: its modality string
does not contain text. -/
def mImageOnly : Model where
  id := "acme/pixel-gen"
  name := "Pixel Gen"
  description := "makes pictures"
  pricing := ⟨"0", "0", "0", "0"⟩
  context_length := 1000
  architecture := ⟨"image->image", "unknown", none⟩
  top_provider := none

/-- The constraint object with every field absent. -/
def trivialConstraints : Constraints :=
  ⟨none, none, none, none, none, none, none, none, "any"⟩

/-- A constraint object requiring only the text input modality. -/
def textOnlyInputConstraints : Constraints :=
  ⟨some ["text"], none, none, none, none, none, none, none, "any"⟩

/-- A constraint object requiring the image input modality. -/
def imageInputConstraints : Constraints :=
  ⟨some ["image"], none, none, none, none, none, none, none, "any"⟩

/-- A constraint object carrying only a price cap. -/
def priceOnlyConstraints (cap : ℚ) : Constraints :=
  ⟨none, none, none, some cap, none, none, none, none, "any"⟩

/-- A model priced at half a dollar per million prompt tokens. -/
def mCheap : Model :=
  { mTextChat with id := "acme/cheap", pricing := ⟨"0.0000005", "0", "0", "0"⟩ }

/-- A model priced at five dollars per million prompt tokens. -/
def mPricey : Model :=
  { mTextChat with id := "acme/pricey", pricing := ⟨"0.000005", "0", "0", "0"⟩ }

/-- A catalog of 51 distinct text models, enough to trigger truncation. -/
def bigCatalog : List Model :=
  (List.range 51).map (fun i => { mTextChat with id := "acme/m" ++ toString i })

/-! ### Helper lemmas -/

/-- Rebuilding a string from its characters is the identity. -/
lemma string_mk_data (s : String) : String.mk s.data = s := rfl

/-- A relax-guarded check that is off at some level stays off at every
higher level: the guards only compare the relax level against a bound. -/
lemma guard_step {r r' k : Nat} (hle : r ≤ r') {b : Bool}
    (h : (decide (r < k) && b) = false) : (decide (r' < k) && b) = false := by
  by_cases hk : r' < k
  · have h2 : decide (r < k) = true := decide_eq_true (lt_of_le_of_lt hle hk)
    have h3 : decide (r' < k) = true := decide_eq_true hk
    rw [h2, Bool.true_and] at h
    rw [h3, Bool.true_and]
    exact h
  · rw [decide_eq_false hk, Bool.false_and]

/-- Raising the relax level never rejects a previously accepted model:
every check is guarded by an upper bound on the relax level. -/
lemma passesFilter_mono (c : Constraints) (m : Model) {r r' : Nat} (hle : r ≤ r')
    (h : passesFilter c r m = true) : passesFilter c r' m = true := by
  unfold passesFilter at h ⊢
  rw [Bool.not_eq_true'] at h ⊢
  simp only [Bool.or_eq_false_iff] at h ⊢
  obtain ⟨⟨⟨⟨⟨⟨⟨h1, h2⟩, h3⟩, h4⟩, h5⟩, h6⟩, h7⟩, h8⟩ := h
  exact ⟨⟨⟨⟨⟨⟨⟨guard_step hle h1, guard_step hle h2⟩, guard_step hle h3⟩,
    guard_step hle h4⟩, guard_step hle h5⟩, guard_step hle h6⟩,
    guard_step hle h7⟩, guard_step hle h8⟩

/-- Lowercasing a character either fixes it or yields a lowercase letter. -/
lemma asciiLower_cases (c : Char) :
    asciiLower c = c ∨ asciiLower c ∈
      ['a','b','c','d','e','f','g','h','i','j','k','l','m',
       'n','o','p','q','r','s','t','u','v','w','x','y','z'] := by
  unfold asciiLower
  split <;> first | (right; decide) | (left; rfl)

/-- Only the dash lowercases to a dash. -/
lemma asciiLower_dash {c : Char} (h : asciiLower c = '-') : c = '-' := by
  rcases asciiLower_cases c with h2 | h2
  · rw [h] at h2
    exact h2.symm
  · rw [h] at h2
    exact absurd h2 (by decide)

/-- Only the greater-than sign lowercases to a greater-than sign. -/
lemma asciiLower_gt {c : Char} (h : asciiLower c = '>') : c = '>' := by
  rcases asciiLower_cases c with h2 | h2
  · rw [h] at h2
    exact h2.symm
  · rw [h] at h2
    exact absurd h2 (by decide)

/-- If the lowercased characters start with the arrow, so did the
original characters. -/
lemma arrow_isPrefixOf_map : ∀ {l : List Char},
    List.isPrefixOf ['-', '>'] (l.map asciiLower) = true →
    List.isPrefixOf ['-', '>'] l = true
  | [], h => by simp [List.isPrefixOf] at h
  | [c], h => by simp [List.isPrefixOf] at h
  | c :: d :: rest, h => by
      simp only [List.map_cons, List.isPrefixOf, Bool.and_eq_true, beq_iff_eq] at h ⊢
      obtain ⟨hc, hd, -⟩ := h
      exact ⟨(asciiLower_dash hc.symm).symm, (asciiLower_gt hd.symm).symm, trivial⟩

/-- If the characters do not contain the arrow, neither do their
lowercased images. -/
lemma arrow_containsSeq_map : ∀ {l : List Char},
    containsSeq ['-', '>'] l = false →
    containsSeq ['-', '>'] (l.map asciiLower) = false
  | [], _ => rfl
  | c :: rest, h => by
      rw [containsSeq] at h
      simp only [Bool.or_eq_false_iff] at h
      obtain ⟨h1, h2⟩ := h
      rw [List.map_cons, containsSeq]
      simp only [Bool.or_eq_false_iff]
      refine ⟨?_, arrow_containsSeq_map h2⟩
      cases hp : List.isPrefixOf ['-', '>'] (asciiLower c :: rest.map asciiLower)
      · rfl
      · rw [show asciiLower c :: rest.map asciiLower = (c :: rest).map asciiLower
            from rfl] at hp
        rw [arrow_isPrefixOf_map hp] at h1
        exact h1

/-- Splitting at the arrow is trivial when the characters contain none. -/
lemma splitArrow_eq_single : ∀ {l : List Char},
    containsSeq ['-', '>'] l = false → splitArrow l = [l]
  | [], _ => rfl
  | c :: rest, h => by
      rw [containsSeq] at h
      simp only [Bool.or_eq_false_iff] at h
      obtain ⟨h1, h2⟩ := h
      rw [splitArrow.eq_def]
      split
      · rename_i x heq
        exact absurd heq (by simp)
      · rename_i x rest2 heq
        rw [heq] at h1
        simp [List.isPrefixOf] at h1
      · rename_i x1 c2 rest2 hno heq
        injection heq with hc hr
        subst hc
        subst hr
        rw [splitArrow_eq_single h2]

/-! ### Claims -/

/-- Claim C10: the per-model filter predicate is monotone in the relax
level — every model accepted by filterModels at relax level 0 is also
accepted at level 1, and every model accepted at level 1 is also
accepted at level 2. -/
theorem filter_monotone_in_relax (models : List Model) (c : Constraints) (m : Model) :
    (m ∈ filterModels models c 0 → m ∈ filterModels models c 1) ∧
    (m ∈ filterModels models c 1 → m ∈ filterModels models c 2) := by
  constructor
  · intro hm
    obtain ⟨hmem, hp⟩ := List.mem_filter.mp hm
    exact List.mem_filter.mpr ⟨hmem, passesFilter_mono c m (by omega) hp⟩
  · intro hm
    obtain ⟨hmem, hp⟩ := List.mem_filter.mp hm
    exact List.mem_filter.mpr ⟨hmem, passesFilter_mono c m (by omega) hp⟩

/-- Witness for Claim C10 at a concrete catalog and model. -/
theorem filter_monotone_witness :
    mTextChat ∈ filterModels [mTextChat] trivialConstraints 1 :=
  (filter_monotone_in_relax [mTextChat] trivialConstraints mTextChat).1 (by decide)

/-- Claim C1: the progressive-relaxation filter evaluates levels 0, 1, 2
in order and returns the first whose candidate count reaches
minCandidates (default 10), else the level-3 fallback; hence the
returned relaxLevel is at most 3, a returned level at most 2 is the
filter output at that level and meets minCandidates, and every smaller
level in 0 to 2 falls short of minCandidates. -/
theorem relax_level_is_first_sufficient (models : List Model) (c : Constraints)
    (minCandidates : Nat) :
    filterModelsWithFallback models c = filterModelsWithFallback models c 10 ∧
    (filterModelsWithFallback models c minCandidates).relaxLevel ≤ 3 ∧
    ((filterModelsWithFallback models c minCandidates).relaxLevel ≤ 2 →
      (filterModelsWithFallback models c minCandidates).candidates =
        filterModels models c
          (filterModelsWithFallback models c minCandidates).relaxLevel ∧
      minCandidates ≤
        (filterModelsWithFallback models c minCandidates).candidates.length) ∧
    (∀ l, l < (filterModelsWithFallback models c minCandidates).relaxLevel → l ≤ 2 →
      (filterModels models c l).length < minCandidates) := by
  refine ⟨rfl, ?_⟩
  unfold filterModelsWithFallback
  split_ifs with h0 h1 h2 <;> dsimp only
  · exact ⟨by omega, fun _ => ⟨rfl, h0⟩, fun l hl _ => by omega⟩
  · refine ⟨by omega, fun _ => ⟨rfl, h1⟩, ?_⟩
    intro l hl _
    interval_cases l
    omega
  · refine ⟨by omega, fun _ => ⟨rfl, h2⟩, ?_⟩
    intro l hl _
    interval_cases l
    · omega
    · omega
  · refine ⟨by omega, fun h => absurd h (by omega), ?_⟩
    intro l hl hle
    interval_cases l
    · omega
    · omega
    · omega

/-- Witness for Claim C1 at a concrete catalog where level 0 suffices. -/
theorem relax_level_witness :
    (filterModelsWithFallback [mTextChat] trivialConstraints 1).candidates =
      filterModels [mTextChat] trivialConstraints
        (filterModelsWithFallback [mTextChat] trivialConstraints 1).relaxLevel ∧
    1 ≤ (filterModelsWithFallback [mTextChat] trivialConstraints 1).candidates.length :=
  (relax_level_is_first_sufficient [mTextChat] trivialConstraints 1).2.2.1 (by decide)

/-- Counterexample to Claim C2 as stated: a non-empty catalog whose only
model is not text-capable makes the progressive-relaxation filter
return an empty candidate list — there is no full-catalog fallback. -/
theorem fallback_can_be_empty :
    ([mImageOnly] : List Model) ≠ [] ∧
    (filterModelsWithFallback [mImageOnly] trivialConstraints).candidates = [] := by
  constructor
  · decide
  · decide

/-- Claim C2, amended: with minCandidates at least 1, the filter returns
a non-empty candidate list whenever some model of the catalog is
text-capable (its modality string contains text, an empty modality
string counting as text-to-text); whenever the fallback level 3 is
reached, the candidates are exactly the text-capable models, so a
catalog without any text-capable model yields an empty list there. -/
theorem fallback_nonempty_of_text_capable :
    (∀ (models : List Model) (c : Constraints) (minCandidates : Nat),
      1 ≤ minCandidates →
      (∃ m, m ∈ models ∧ isTextCapable m = true) →
      (filterModelsWithFallback models c minCandidates).candidates ≠ []) ∧
    (∀ (models : List Model) (c : Constraints) (minCandidates : Nat),
      (filterModelsWithFallback models c minCandidates).relaxLevel = 3 →
      (filterModelsWithFallback models c minCandidates).candidates =
        models.filter isTextCapable) := by
  constructor
  · intro models c minCandidates hmin ⟨m, hm, ht⟩
    unfold filterModelsWithFallback
    split_ifs with h0 h1 h2
    · show filterModels models c 0 ≠ []
      exact List.length_pos.mp (by omega)
    · show filterModels models c 1 ≠ []
      exact List.length_pos.mp (by omega)
    · show filterModels models c 2 ≠ []
      exact List.length_pos.mp (by omega)
    · show models.filter isTextCapable ≠ []
      exact List.ne_nil_of_mem (List.mem_filter.mpr ⟨hm, ht⟩)
  · intro models c minCandidates h
    unfold filterModelsWithFallback at h ⊢
    split_ifs at h ⊢
    all_goals first
      | rfl
      | exact absurd h (by simp)

/-- Witness for the amended Claim C2 at a concrete catalog. -/
theorem fallback_nonempty_witness :
    (filterModelsWithFallback [mTextChat] trivialConstraints 10).candidates ≠ [] :=
  (fallback_nonempty_of_text_capable).1 [mTextChat] trivialConstraints 10 (by omega)
    ⟨mTextChat, by decide, by decide⟩

/-- Counterexample to Claim C3 as stated: a constraint requiring only
the text input modality excludes nothing at level 0 — a model whose
parsed inputs do not contain text is still kept. -/
theorem text_only_constraint_excludes_nothing :
    (parseModalityString mImageOnly.architecture.modality).inputs.contains "text"
      = false ∧
    filterModels [mImageOnly] textOnlyInputConstraints 0 = [mImageOnly] := by
  constructor
  · decide
  · decide

/-- Claim C3, amended: at relax level 0, a constraint whose required
input-modality list contains some non-text modality excludes every
model whose parsed inputs do not contain all required (lowercased)
input modalities, and symmetrically for outputs; when every required
modality is text, the modality check is skipped entirely. -/
theorem nontext_modality_exclusion :
    (∀ (c : Constraints) (m : Model) (mods : List String),
      c.input_modalities = some mods →
      mods.any (fun mod => mod != "text") = true →
      mods.all (fun req =>
        (parseModalityString m.architecture.modality).inputs.contains (jsLower req))
          = false →
      passesFilter c 0 m = false) ∧
    (∀ (c : Constraints) (m : Model) (mods : List String),
      c.output_modalities = some mods →
      mods.any (fun mod => mod != "text") = true →
      mods.all (fun req =>
        (parseModalityString m.architecture.modality).outputs.contains (jsLower req))
          = false →
      passesFilter c 0 m = false) ∧
    (∀ (c : Constraints) (m : Model) (mods : List String),
      c.input_modalities = some mods →
      mods.any (fun mod => mod != "text") = false →
      inputModalityFails c m = false) ∧
    (∀ (c : Constraints) (m : Model) (mods : List String),
      c.output_modalities = some mods →
      mods.any (fun mod => mod != "text") = false →
      outputModalityFails c m = false) := by
  refine ⟨?_, ?_, ?_, ?_⟩
  · intro c m mods hc hany hall
    have hne : mods.isEmpty = false := by
      cases mods
      · simp at hany
      · rfl
    have hfail : inputModalityFails c m = true := by
      simp only [inputModalityFails, hc]
      rw [hne, hany, hall]
      rfl
    unfold passesFilter
    simp [hfail]
  · intro c m mods hc hany hall
    have hne : mods.isEmpty = false := by
      cases mods
      · simp at hany
      · rfl
    have hfail : outputModalityFails c m = true := by
      simp only [outputModalityFails, hc]
      rw [hne, hany, hall]
      rfl
    unfold passesFilter
    simp [hfail]
  · intro c m mods hc hany
    simp only [inputModalityFails, hc]
    rw [hany]
    simp
  · intro c m mods hc hany
    simp only [outputModalityFails, hc]
    rw [hany]
    simp

/-- Witness for the amended Claim C3: an image-input requirement rejects
a text-only model at level 0. -/
theorem nontext_modality_witness :
    passesFilter imageInputConstraints 0 mTextChat = false :=
  (nontext_modality_exclusion).1 imageInputConstraints mTextChat ["image"]
    rfl (by decide) (by decide)

/-- Counterexample to Claim C4 as stated: the modality string "image"
contains no arrow, yet parseModalityString returns inputs = ["image"],
not ["text"]. -/
theorem parse_no_arrow_counterexample :
    jsIncludes "image" "->" = false ∧
    parseModalityString "image" ≠ ⟨["text"], ["text"]⟩ ∧
    parseModalityString "image" = ⟨["image"], ["text"]⟩ :=
  ⟨by decide, by decide, by decide⟩

/-- Claim C4, amended: a modality string without the arrow parses to
outputs = ["text"], and to inputs equal to the plus-split of the
lowercased string, which is ["text"] only when the string is empty. -/
theorem parse_no_arrow_amended (s : String) (h : jsIncludes s "->" = false) :
    parseModalityString s =
      ⟨if jsLower s == "" then ["text"]
        else (splitChar '+' (jsLower s).data).map String.mk, ["text"]⟩ := by
  have hc : containsSeq ['-', '>'] (jsLower s).data = false := by
    have hr : containsSeq ['-', '>'] s.data = false := h
    exact arrow_containsSeq_map hr
  have hsplit : splitArrow (jsLower s).data = [(jsLower s).data] :=
    splitArrow_eq_single hc
  simp only [parseModalityString, hsplit, List.map_cons, List.map_nil, string_mk_data]
  simp

/-- Witness for the amended Claim C4 at the arrowless string "text". -/
theorem parse_no_arrow_witness :
    parseModalityString "text" = ⟨["text"], ["text"]⟩ := by
  rw [parse_no_arrow_amended "text" (by decide)]
  decide

/-- Claim C5: extraction never raises — on any failure of the
generative call it returns exactly the documented default constraint
object, and on success the parsed constraints. -/
theorem extraction_never_raises :
    (∀ e, extractConstraintsWithLLM (.failure e) = DEFAULT_CONSTRAINTS) ∧
    (∀ cs, extractConstraintsWithLLM (.success cs) = cs) ∧
    DEFAULT_CONSTRAINTS =
      { input_modalities := some ["text"]
        output_modalities := some ["text"]
        min_context := some 0
        max_price_per_million := none
        preferred_providers := some []
        excluded_providers := some []
        capability_keywords := some []
        exclude_keywords := some ["embedding", "base"]
        speed_preference := "any" } :=
  ⟨fun _ => rfl, fun _ => rfl, rfl⟩

/-- Claim C6: a Stage 3 ranking failure makes the recommendation route
answer 500 with the fixed error string and the failure message as
details, with no fallback recommendations, while an extraction failure
alone still yields a 200. -/
theorem ranking_failure_surfaces_500 :
    (∀ (u : String) (count : Nat) (models : List Model) (ext : LLMOutcome)
        (e : String),
      u ≠ "" →
      recommendHandler (some u) count (Except.ok models) ext (.failure e) =
        Response.serverError "Failed to generate recommendations" e ∧
      statusOf (recommendHandler (some u) count (Except.ok models) ext (.failure e))
        = 500) ∧
    (∀ (u : String) (count : Nat) (models : List Model) (msg : String)
        (recs : List Recommendation),
      u ≠ "" →
      statusOf
        (recommendHandler (some u) count (Except.ok models) (.failure msg)
          (.success recs)) = 200) := by
  constructor
  · intro u count models ext e hu
    constructor
    · simp [recommendHandler, hu]
    · simp [recommendHandler, statusOf, hu]
  · intro u count models msg recs hu
    simp [recommendHandler, statusOf, hu]

/-- Witness for Claim C6 at concrete requests. -/
theorem ranking_failure_witness :
    recommendHandler (some "chat") 3 (Except.ok [mTextChat]) (.failure "f")
        (.failure "boom") =
      Response.serverError "Failed to generate recommendations" "boom" ∧
    statusOf
      (recommendHandler (some "chat") 3 (Except.ok [mTextChat]) (.failure "f")
        (.success [])) = 200 :=
  ⟨((ranking_failure_surfaces_500).1 "chat" 3 [mTextChat] (.failure "f") "boom"
      (by decide)).1,
   (ranking_failure_surfaces_500).2 "chat" 3 [mTextChat] "f" [] (by decide)⟩

/-- The half-dollar-per-million price string parses to five tenths of a
millionth. -/
lemma parseFloat_cheap : parseFloatQ "0.0000005" = some (5 / 10 ^ 7 : ℚ) := by
  have h : parseFloatQ "0.0000005" =
      some ((digitsVal ['0'] : ℚ) +
        (digitsVal ['0','0','0','0','0','0','5'] : ℚ) / (10 : ℚ) ^ 7) := rfl
  rw [h, show digitsVal ['0'] = 0 from rfl,
    show digitsVal ['0','0','0','0','0','0','5'] = 5 from rfl]
  norm_num

/-- The five-dollar-per-million price string parses to five millionths. -/
lemma parseFloat_pricey : parseFloatQ "0.000005" = some (5 / 10 ^ 6 : ℚ) := by
  have h : parseFloatQ "0.000005" =
      some ((digitsVal ['0'] : ℚ) +
        (digitsVal ['0','0','0','0','0','5'] : ℚ) / (10 : ℚ) ^ 6) := rfl
  rw [h, show digitsVal ['0'] = 0 from rfl,
    show digitsVal ['0','0','0','0','0','5'] = 5 from rfl]
  norm_num

/-- Claim C7: at relax level 0 with a price cap, a model is excluded by
the price check exactly when its parsed per-token prompt price times
one million exceeds the cap, with exact arithmetic and no rounding; a
model with prompt price "0" is never excluded by the price check for
any non-negative cap, a model priced "0.0000005" passes a cap of 1, and
a model priced "0.000005" fails it. -/
theorem price_filter_exact :
    (∀ (c : Constraints) (cap : ℚ) (m : Model) (p : ℚ),
      c.max_price_per_million = some cap →
      parseFloatQ m.pricing.prompt = some p →
      p * 1000000 > cap →
      passesFilter c 0 m = false) ∧
    (∀ (cap : ℚ) (m : Model),
      passesFilter (priceOnlyConstraints cap) 0 m = false ↔
        ∃ p, parseFloatQ m.pricing.prompt = some p ∧ p * 1000000 > cap) ∧
    (∀ (c : Constraints) (cap : ℚ) (m : Model),
      c.max_price_per_million = some cap → 0 ≤ cap →
      m.pricing.prompt = "0" → priceFails c m = false) ∧
    (∀ m : Model, m.pricing.prompt = "0.0000005" →
      passesFilter (priceOnlyConstraints 1) 0 m = true) ∧
    (∀ m : Model, m.pricing.prompt = "0.000005" →
      passesFilter (priceOnlyConstraints 1) 0 m = false) := by
  refine ⟨?_, ?_, ?_, ?_, ?_⟩
  · intro c cap m p hc hp hgt
    have hfail : priceFails c m = true := by
      simp only [priceFails, hc, hp]
      exact decide_eq_true hgt
    unfold passesFilter
    simp [hfail]
  · intro cap m
    unfold passesFilter
    simp only [priceOnlyConstraints, inputModalityFails, outputModalityFails,
      contextFails, priceFails, preferredProviderFails, excludedProviderFails,
      capabilityKeywordFails, excludeKeywordFails]
    cases hp : parseFloatQ m.pricing.prompt with
    | none => simp [hp]
    | some p => simp [hp]
  · intro c cap m hc hcap hpr
    have hzero : parseFloatQ m.pricing.prompt = some ((digitsVal ['0'] : ℚ)) := by
      rw [hpr]
      rfl
    have hnot : ¬ ((digitsVal ['0'] : ℚ) * 1000000 > cap) := by
      rw [show digitsVal ['0'] = 0 from rfl]
      simp only [Nat.cast_zero, zero_mul, gt_iff_lt, not_lt]
      exact hcap
    simp only [priceFails, hc, hzero]
    exact decide_eq_false hnot
  · intro m hpr
    unfold passesFilter
    simp only [priceOnlyConstraints, inputModalityFails, outputModalityFails,
      contextFails, priceFails, preferredProviderFails, excludedProviderFails,
      capabilityKeywordFails, excludeKeywordFails, hpr, parseFloat_cheap]
    norm_num
  · intro m hpr
    unfold passesFilter
    simp only [priceOnlyConstraints, inputModalityFails, outputModalityFails,
      contextFails, priceFails, preferredProviderFails, excludedProviderFails,
      capabilityKeywordFails, excludeKeywordFails, hpr, parseFloat_pricey]
    norm_num

/-- Witness for Claim C7: a zero-priced model passes any cap of 1. -/
theorem price_filter_witness :
    priceFails (priceOnlyConstraints 1) mTextChat = false :=
  (price_filter_exact).2.2.1 (priceOnlyConstraints 1) 1 mTextChat rfl (by decide) rfl

/-- Claim C8: the candidate list handed to Stage 3 never exceeds 50
entries; when filtering yields more than 50, the list is the stable
provider-priority sort truncated to its first 50 entries, and the
candidatesRanked metadata equals the truncated length. -/
theorem candidates_truncated_to_50 :
    (∀ l : List Model, (limitCandidates l).length ≤ 50) ∧
    (∀ l : List Model, 50 < l.length →
      limitCandidates l =
        (l.mergeSort (fun a b => decide (providerRank a ≤ providerRank b))).take 50) ∧
    (∀ (u : String) (count : Nat) (models : List Model) (ext : LLMOutcome)
        (recs : List Recommendation),
      u ≠ "" →
      responseCandidatesRanked
        (recommendHandler (some u) count (Except.ok models) ext (.success recs)) =
        some ((limitCandidates
          (filterModelsWithFallback models
            (extractConstraintsWithLLM ext)).candidates).length)) := by
  refine ⟨?_, ?_, ?_⟩
  · intro l
    unfold limitCandidates
    split_ifs with h
    · rw [List.length_take]
      exact inf_le_left
    · omega
  · intro l h
    unfold limitCandidates
    rw [if_pos h]
  · intro u count models ext recs hu
    simp [recommendHandler, responseCandidatesRanked, hu]

/-- Witness for Claim C8: a 51-model catalog is sorted and truncated,
and a small request reports the truncated length. -/
theorem candidates_truncated_witness :
    limitCandidates bigCatalog =
      (bigCatalog.mergeSort
        (fun a b => decide (providerRank a ≤ providerRank b))).take 50 ∧
    responseCandidatesRanked
      (recommendHandler (some "chat") 3 (Except.ok [mTextChat]) (.failure "f")
        (.success [])) =
      some ((limitCandidates
        (filterModelsWithFallback [mTextChat]
          (extractConstraintsWithLLM (.failure "f"))).candidates).length) :=
  ⟨(candidates_truncated_to_50).2.1 bigCatalog (by decide),
   (candidates_truncated_to_50).2.2 "chat" 3 [mTextChat] (.failure "f") [] (by decide)⟩

/-- Claim C9: a second call to the catalog getter within the TTL of a
successful call that cached at a truthy timestamp returns the same
catalog, leaves the cache state unchanged, and is independent of the
second fetch outcome (no second upstream fetch). -/
theorem cache_idempotent (st : CacheState) (t1 t2 t0 : Nat)
    (f1 f2 : Except String (List Model)) (models : List Model) (st1 : CacheState)
    (h1 : getModels st t1 f1 = (Except.ok models, st1))
    (hts : st1.cacheTimestamp = some t0) (h0 : t0 ≠ 0)
    (httl : t2 - t0 < MODEL_CACHE_TTL) :
    getModels st1 t2 f2 = (Except.ok models, st1) := by
  have hcm : st1.cachedModels = some models := by
    obtain ⟨cm, ct⟩ := st
    rcases cm with _ | ms
    · rcases f1 with e | fresh
      · simp [getModels] at h1
      · simp [getModels] at h1
        obtain ⟨hf, hst⟩ := h1
        rw [← hst]
        simp [hf]
    · rcases ct with _ | ts
      · rcases f1 with e | fresh
        · simp [getModels] at h1
        · simp [getModels] at h1
          obtain ⟨hf, hst⟩ := h1
          rw [← hst]
          simp [hf]
      · by_cases hcond : ts ≠ 0 ∧ t1 - ts < MODEL_CACHE_TTL
        · simp [getModels, hcond] at h1
          obtain ⟨hf, hst⟩ := h1
          rw [← hst]
          simp [hf]
        · rcases f1 with e | fresh
          · simp [getModels, hcond] at h1
          · simp [getModels, hcond] at h1
            obtain ⟨hf, hst⟩ := h1
            rw [← hst]
            simp [hf]
  cases st1 with
  | mk cm1 ct1 =>
    have hts2 : ct1 = some t0 := hts
    have hcm2 : cm1 = some models := hcm
    subst hts2
    subst hcm2
    simp only [getModels]
    rw [if_pos ⟨h0, httl⟩]

/-- Witness for Claim C9: after a fetch at time 1000, a call at time
2000 serves the cache even though its own fetch outcome is an error. -/
theorem cache_idempotent_witness :
    getModels ⟨some [mTextChat], some 1000⟩ 2000 (Except.error "boom") =
      (Except.ok [mTextChat], ⟨some [mTextChat], some 1000⟩) :=
  cache_idempotent ⟨none, none⟩ 1000 2000 1000 (Except.ok [mTextChat])
    (Except.error "boom") [mTextChat] ⟨some [mTextChat], some 1000⟩
    rfl rfl (by decide) (by decide)

end LLMCompass
